import Mathlib

/-!
Verification of the course-model core of `aratools` (`aratools/parcour.py`).

The embedding models Python strings as `List Char` (called `Str`), so that
string splitting, counting and parsing are ordinary structural recursions.
Python exceptions (`KeyError`, `ValueError`, `AssertionError`) become an
explicit error type carried by `Except`.  File and KML I/O plumbing is out
of scope: the KML document is modelled as the tree of folders and
placemarks that `fastkml` hands to the code, and the team file as its raw
text content.
-/

/-- Python strings, modelled as lists of characters. -/
abbrev Str := List Char

/-- Number of occurrences of character `c` in `s`; models Python `s.count(c)`
for a single-character needle. -/
def countChar (c : Char) (s : Str) : Nat :=
  s.countP (fun d => d == c)

/-- Models Python `s.split(sep)` for a single-character separator: splits on
every occurrence, keeping empty parts, and yields one part even for the
empty string. -/
def splitOnChar (sep : Char) : Str → List Str
  | [] => [[]]
  | c :: cs =>
    match splitOnChar sep cs with
    | [] => [[]]
    | p :: ps => if c = sep then [] :: p :: ps else (c :: p) :: ps

/-- ASCII-range whitespace recognised by Python `str.strip()`. -/
def isPySpace (c : Char) : Bool :=
  c == ' ' || c == '\t' || c == '\n' || c == '\r' || c == '\x0b' || c == '\x0c'

/-- Models Python `s.strip()`: removes leading and trailing whitespace. -/
def pyStrip (s : Str) : Str :=
  ((s.dropWhile isPySpace).reverse.dropWhile isPySpace).reverse

/-- Models Python `s.lower()` on the ASCII range (attribute keys in the KML
documents are ASCII). -/
def pyLower (s : Str) : Str :=
  s.map Char.toLower

/-- Decimal value of a nonempty all-digit string, `none` otherwise. -/
def parseDigits (s : Str) : Option Nat :=
  if s.isEmpty then none
  else if s.all Char.isDigit then
    some (s.foldl (fun a c => a * 10 + (c.toNat - 48)) 0)
  else none

/-- Models Python `int(s)` on decimal literals: optional surrounding
whitespace, optional sign, then digits.  (Underscore digit grouping and
non-decimal bases are outside the inputs this program sees.) -/
def pyInt (s : Str) : Option Int :=
  match pyStrip s with
  | '-' :: rest => (parseDigits rest).map (fun n => -(n : Int))
  | '+' :: rest => (parseDigits rest).map (fun n => (n : Int))
  | t => (parseDigits t).map (fun n => (n : Int))

/-- Models Python `int(float(s))` on plain decimal literals: optional sign,
integer digits, optional point and fraction digits; conversion to `int`
truncates toward zero, so the result is the sign applied to the integer
part.  (Exponent forms and `inf`/`nan` are outside the inputs this program
sees.) -/
def pyFloatTruncInt (s : Str) : Option Int :=
  let t := pyStrip s
  let signed : Bool × Str :=
    match t with
    | '-' :: r => (true, r)
    | '+' :: r => (false, r)
    | _ => (false, t)
  let u := signed.2
  let ip := u.takeWhile Char.isDigit
  let rest := u.dropWhile Char.isDigit
  let ipVal : Int := Int.ofNat (ip.foldl (fun a c => a * 10 + (c.toNat - 48)) 0)
  match rest with
  | [] =>
    if ip.isEmpty then none
    else some (if signed.1 then -ipVal else ipVal)
  | '.' :: fp =>
    if fp.all Char.isDigit && (!ip.isEmpty || !fp.isEmpty) then
      some (if signed.1 then -ipVal else ipVal)
    else none
  | _ => none

/-- Models Python `file.readlines()`: splits the content into lines, each
line keeping its terminating newline; a final fragment without a newline is
also a line; the result never contains an empty string. -/
def pyReadlines : Str → List Str
  | [] => []
  | c :: cs =>
    match pyReadlines cs with
    | [] => [[c]]
    | l :: ls => if c = '\n' then [c] :: l :: ls else (c :: l) :: ls

/-- Decimal rendering of a natural number, as Python `str(n)` produces for
nonnegative `n`. -/
def natToStr (n : Nat) : Str :=
  Nat.toDigits 10 n

/-- One `<Data>` element of a placemark's extended data: a `name` and a
string `value`, as exposed by `fastkml` (`e.name`, `e.value`). -/
structure DataElement where
  name : Str
  value : Str
deriving DecidableEq

/-- A KML placemark as the extractor sees it: its extended-data elements and
its geometry point.  The coordinate converter (`aratools/coordinate.py`,
`WKT_converter.to_amersfoort`) is a pure numeric transform whose code is
outside this core; the model carries the already-converted integer pair,
since no claim concerns the numeric projection itself. -/
structure Placemark where
  extendedData : List DataElement
  point : Int × Int
deriving DecidableEq

/-- A KML folder: its name and the placemark features it contains. -/
structure Folder where
  name : Str
  placemarks : List Placemark
deriving DecidableEq

/-- `CheckPoint` from `parcour.py`: frozen dataclass with index, score,
hint, hidden flag and projected coordinate. -/
structure CheckPoint where
  idx : Int
  score : Int
  hint : Str
  hidden : Bool
  coordinate : Int × Int
deriving DecidableEq

/-- `Etappe` from `parcour.py`: frozen dataclass with stage index, kind and
checkpoint tuple. -/
structure Etappe where
  idx : Int
  kind : Str
  checkpoints : List CheckPoint
deriving DecidableEq

/-- The Python exceptions the core can raise: `KeyError(key)` from a dict
lookup, `ValueError` from `int`/`float` parsing, `AssertionError` from an
`assert` statement.  A bare `KeyError` carries only the missing key. -/
inductive PyError where
  | keyError (key : Str)
  | valueError
  | assertionError
deriving DecidableEq

/-- True on `Except.ok`; models "the Python call returns without raising". -/
def isOkB {α : Type} : Except PyError α → Bool
  | .ok _ => true
  | .error _ => false

/-- Python `cp > n` for an integer operand: `CheckPoint.__gt__(self, other)`
returns `self.idx > other`. -/
def CheckPoint.gtInt (c : CheckPoint) (n : Int) : Bool :=
  c.idx > n

/-- Python `cp < n` for an integer operand: `CheckPoint.__lt__(self, other)`
returns `self.idx < other`. -/
def CheckPoint.ltInt (c : CheckPoint) (n : Int) : Bool :=
  c.idx < n

/-- Python `a < b` for two checkpoints: `a.__lt__(b)` evaluates
`a.idx < b`; the `int`-versus-`CheckPoint` comparison is not implemented on
`int`, so Python dispatches to the reflected `b.__gt__(a.idx)`. -/
def cpLt (a b : CheckPoint) : Bool :=
  b.gtInt a.idx

/-- Python `a > b` for two checkpoints: `a.__gt__(b)` evaluates
`a.idx > b`, which dispatches to the reflected `b.__lt__(a.idx)`. -/
def cpGt (a b : CheckPoint) : Bool :=
  b.ltInt a.idx

/-- Insert into an already-sorted run, keeping an earlier-listed element
before later equal-index elements, exactly as a stable sort does. -/
def insertCP (x : CheckPoint) : List CheckPoint → List CheckPoint
  | [] => [x]
  | y :: ys => if cpLt y x then y :: insertCP x ys else x :: y :: ys

/-- Models Python `sorted(checkpoints)`: a stable sort under the `<` of
`cpLt`.  Python's sort is stable, and any stable sort with the same strict
comparison yields the same list, so insertion sort is a faithful model. -/
def sortCPs : List CheckPoint → List CheckPoint
  | [] => []
  | x :: xs => insertCP x (sortCPs xs)

/-- Models `Etappe(...)` construction including `__post_init__`:
`assert tuple(sorted(self.checkpoints)) == self.checkpoints` and
`assert len(self.checkpoints) > 1`; a failing assert raises
`AssertionError`. -/
def mkEtappe (idx : Int) (kind : Str) (cps : List CheckPoint) : Except PyError Etappe :=
  if sortCPs cps = cps ∧ cps.length > 1 then .ok ⟨idx, kind, cps⟩
  else .error .assertionError

/-- Models the dict comprehension
`{e.name.lower(): e.value for e in placemark.extended_data.elements}`
followed by a lookup of `key`: later elements overwrite earlier ones with
the same lowered name, so the lookup returns the value of the last match. -/
def cpDataGet (elems : List DataElement) (key : Str) : Option Str :=
  elems.foldl (fun acc e => if pyLower e.name = key then some e.value else acc) none

/-- Key strings used by the extractor. -/
def scoreKey : Str := "score".toList

/-- Key string for the hint attribute. -/
def hintKey : Str := "hint".toList

/-- Key string for the hidden attribute. -/
def hiddenKey : Str := "hidden".toList

/-- Models the body of the extraction loop for the placemark at 0-based
position `i`: builds `CheckPoint(idx=i+1, score=int(float(cp_data["score"])),
hint=str(cp_data["hint"]), hidden=bool(int(cp_data["hidden"])),
coordinate=...)`.  Arguments are evaluated left to right, so the first
missing key among `score`, `hint`, `hidden` raises its `KeyError`, and an
unparseable number raises `ValueError`. -/
def checkpointOfPlacemark (i : Nat) (pm : Placemark) : Except PyError CheckPoint :=
  match cpDataGet pm.extendedData scoreKey with
  | none => .error (.keyError scoreKey)
  | some scoreStr =>
    match pyFloatTruncInt scoreStr with
    | none => .error .valueError
    | some score =>
      match cpDataGet pm.extendedData hintKey with
      | none => .error (.keyError hintKey)
      | some hint =>
        match cpDataGet pm.extendedData hiddenKey with
        | none => .error (.keyError hiddenKey)
        | some hiddenStr =>
          match pyInt hiddenStr with
          | none => .error .valueError
          | some hiddenInt =>
            .ok ⟨(i : Int) + 1, score, hint, hiddenInt != 0, pm.point⟩

/-- The `for i, placemark in enumerate(folder.features())` loop starting at
position `i`: extracts each placemark in document order, stopping at the
first raised exception. -/
def extractFrom (i : Nat) : List Placemark → Except PyError (List CheckPoint)
  | [] => .ok []
  | pm :: rest =>
    match checkpointOfPlacemark i pm with
    | .error e => .error e
    | .ok cp =>
      match extractFrom (i + 1) rest with
      | .error e => .error e
      | .ok cps => .ok (cp :: cps)

/-- Models `Etappe.from_kml_folder`: asserts the name contains exactly two
underscores, parses the stage index from `name.split("_")[-2]` and the kind
from `name.split("_")[-1]`, extracts the checkpoints in document order and
builds the `Etappe`. -/
def from_kml_folder (f : Folder) : Except PyError Etappe :=
  if countChar '_' f.name = 2 then
    match pyInt ((splitOnChar '_' f.name).getD ((splitOnChar '_' f.name).length - 2) []) with
    | none => .error .valueError
    | some idx =>
      match extractFrom 0 f.placemarks with
      | .error e => .error e
      | .ok cps =>
        mkEtappe idx ((splitOnChar '_' f.name).getD ((splitOnChar '_' f.name).length - 1) []) cps
  else
    .error .assertionError

/-- Python `dict` update with one binding: overwriting an existing key keeps
its position, a new key is appended at the end. -/
def dictInsert (d : List (Int × Etappe)) (k : Int) (v : Etappe) : List (Int × Etappe) :=
  if d.any (fun p => p.1 == k) then
    d.map (fun p => if p.1 = k then (k, v) else p)
  else d ++ [(k, v)]

/-- Models the dict comprehension `{et.idx: et for et in _etappes}`. -/
def dictOf (l : List Etappe) : List (Int × Etappe) :=
  l.foldl (fun d e => dictInsert d e.idx e) []

/-- Python `d[k]` as an option: the value of the first entry with key `k`
(keys are unique in a dict built by `dictInsert`). -/
def dictLookup : List (Int × Etappe) → Int → Option Etappe
  | [], _ => none
  | p :: rest, k => if p.1 = k then some p.2 else dictLookup rest k

/-- The generator expression `tuple(Etappe.from_kml_folder(f) for f in ...)`:
extracts each folder in order, stopping at the first raised exception. -/
def mapExtract : List Folder → Except PyError (List Etappe)
  | [] => .ok []
  | f :: fs =>
    match from_kml_folder f with
    | .error e => .error e
    | .ok et =>
      match mapExtract fs with
      | .error e => .error e
      | .ok ets => .ok (et :: ets)

/-- Models `Parcour._process_etappes_kml` after parsing: the document's
folders are filtered by the two-underscore name rule, each surviving folder
is extracted with `Etappe.from_kml_folder`, and the results are keyed by
stage index in a dict. -/
def process_etappes_kml (folders : List Folder) : Except PyError (List (Int × Etappe)) :=
  match mapExtract (folders.filter (fun f => countChar '_' f.name == 2)) with
  | .error e => .error e
  | .ok ets => .ok (dictOf ets)

/-- Numbers the surviving lines: line at 0-based position `i` becomes
`f"{i+1} {line.strip()}"`. -/
def numberLines (i : Nat) : List Str → List Str
  | [] => []
  | l :: ls => (natToStr (i + 1) ++ [' '] ++ pyStrip l) :: numberLines (i + 1) ls

/-- Models `Parcour._process_teams_file` on the file's text content:
`readlines()`, the `if len(line)` filter, numbering with
`f"{i+1} {line.strip()}"`, and `assert len(self.team_names)`. -/
def process_teams_file (content : Str) : Except PyError (List Str) :=
  let lines := (pyReadlines content).filter (fun l => l.length != 0)
  let names := numberLines 0 lines
  if names.length = 0 then .error .assertionError else .ok names

/-- The `Parcour` object: team names and the stage dict. -/
structure Parcour where
  team_names : List Str
  etappes : List (Int × Etappe)
deriving DecidableEq

/-- Models `Parcour.__init__`: processes the team file, then the stage KML;
either failure aborts construction. -/
def parcourInit (teamContent : Str) (folders : List Folder) : Except PyError Parcour :=
  match process_teams_file teamContent with
  | .error e => .error e
  | .ok tn =>
    match process_etappes_kml folders with
    | .error e => .error e
    | .ok ets => .ok ⟨tn, ets⟩

/-- A KML document as `strip_hidden_cp_from_kml` sees it: namespace, name
and top-level folders. -/
structure KmlDocument where
  ns : Str
  docName : Str
  folders : List Folder
deriving DecidableEq

/-- The placemark loop of the filter inside a recognised stage folder:
keeps a placemark iff `not bool(int(cp_data["hidden"]))`; a missing
`hidden` key raises `KeyError`, an unparseable value `ValueError`. -/
def filterHidden : List Placemark → Except PyError (List Placemark)
  | [] => .ok []
  | pm :: rest =>
    match cpDataGet pm.extendedData hiddenKey with
    | none => .error (.keyError hiddenKey)
    | some hv =>
      match pyInt hv with
      | none => .error .valueError
      | some hn =>
        match filterHidden rest with
        | .error e => .error e
        | .ok tail => .ok (if hn = 0 then pm :: tail else tail)

/-- One folder of the filter transform: a recognised stage folder keeps only
its non-hidden placemarks, any other folder is copied with all its features
verbatim. -/
def stripFolder (f : Folder) : Except PyError Folder :=
  if countChar '_' f.name = 2 then
    match filterHidden f.placemarks with
    | .error e => .error e
    | .ok kept => .ok ⟨f.name, kept⟩
  else
    .ok f

/-- The `for old_folder in old_folders` loop of the filter: transforms each
folder in order, stopping at the first raised exception. -/
def mapStrip : List Folder → Except PyError (List Folder)
  | [] => .ok []
  | f :: fs =>
    match stripFolder f with
    | .error e => .error e
    | .ok g =>
      match mapStrip fs with
      | .error e => .error e
      | .ok gs => .ok (g :: gs)

/-- Models `strip_hidden_cp_from_kml` on the parsed document: a new document
with the same namespace and name, whose folders are the transformed folders
in order. -/
def strip_hidden_cp_from_kml (doc : KmlDocument) : Except PyError KmlDocument :=
  match mapStrip doc.folders with
  | .error e => .error e
  | .ok nf => .ok ⟨doc.ns, doc.docName, nf⟩

/-- A placemark with score 3, a hint, and hidden 0; the capitalised key
names exercise the case-insensitive lookup. -/
def pmA : Placemark :=
  ⟨[⟨"Score".toList, "3".toList⟩, ⟨"hint".toList, "onder de brug".toList⟩,
    ⟨"Hidden".toList, "0".toList⟩], (1, 2)⟩

/-- A placemark with fractional score 2.5 and hidden 1. -/
def pmB : Placemark :=
  ⟨[⟨"score".toList, "2.5".toList⟩, ⟨"HINT".toList, "paaltje".toList⟩,
    ⟨"hidden".toList, "1".toList⟩], (3, 4)⟩

/-- A well-formed stage folder with two placemarks. -/
def folderA : Folder := ⟨"Etappe_4_fietsen".toList, [pmA, pmB]⟩

/-- An organisational folder whose name has no underscores; its single
placemark has no attributes at all. -/
def notesFolder : Folder := ⟨"Notes".toList, [⟨[], (9, 9)⟩]⟩

/-- A placemark whose extended data lacks every required key. -/
def pmNoScore : Placemark := ⟨[⟨"colour".toList, "red".toList⟩], (0, 0)⟩

/-- A placemark with a score but no hint. -/
def pmNoHint : Placemark := ⟨[⟨"score".toList, "1".toList⟩], (0, 0)⟩

/-- A placemark with score and hint but no hidden flag. -/
def pmNoHidden : Placemark :=
  ⟨[⟨"score".toList, "1".toList⟩, ⟨"hint".toList, "x".toList⟩], (0, 0)⟩

/-- A stage folder whose first placemark is missing the `score` key. -/
def folderM1 : Folder := ⟨"Etappe_2_kano".toList, [pmNoScore]⟩

/-- A differently named stage folder with the same defective placemark. -/
def folderM2 : Folder := ⟨"Etappe_3_run".toList, [pmNoScore]⟩

/-- Two distinct checkpoints sharing index 1. -/
def cpDupA : CheckPoint := ⟨1, 0, [], false, (0, 0)⟩

/-- The second checkpoint with the same index but a different hint. -/
def cpDupB : CheckPoint := ⟨1, 5, "x".toList, false, (0, 0)⟩

/-- A second stage folder with the same stage index 4 as `folderA` but a
different kind and different placemarks. -/
def folderA2 : Folder := ⟨"Etappe_4_kano".toList, [pmB, pmA]⟩

/-- A document mixing one stage folder and one organisational folder. -/
def docA : KmlDocument := ⟨"ns0".toList, "race".toList, [folderA, notesFolder]⟩

/-- Nondecreasing-index relation used to state sortedness of checkpoints. -/
def cpLe (a b : CheckPoint) : Prop :=
  a.idx ≤ b.idx

instance (a b : CheckPoint) : Decidable (cpLe a b) :=
  Int.decLe a.idx b.idx

lemma cpLt_iff (a b : CheckPoint) : cpLt a b = true ↔ a.idx < b.idx := by
  simp [cpLt, CheckPoint.gtInt]

lemma mem_insertCP {a x : CheckPoint} {l : List CheckPoint} :
    a ∈ insertCP x l ↔ a = x ∨ a ∈ l := by
  induction l with
  | nil => simp [insertCP]
  | cons y ys ih =>
    by_cases h : cpLt y x = true
    · simp [insertCP, h, ih]
      tauto
    · simp [insertCP, h]

lemma pairwise_insertCP (x : CheckPoint) (l : List CheckPoint)
    (h : l.Pairwise cpLe) : (insertCP x l).Pairwise cpLe := by
  induction l with
  | nil => simp [insertCP]
  | cons y ys ih =>
    rcases (List.pairwise_cons.mp h) with ⟨hy, hys⟩
    by_cases hc : cpLt y x = true
    · simp only [insertCP, hc, if_true]
      refine List.pairwise_cons.mpr ⟨?_, ih hys⟩
      intro z hz
      rcases mem_insertCP.mp hz with hz | hz
      · subst hz
        exact le_of_lt ((cpLt_iff _ _).mp hc)
      · exact hy z hz
    · simp only [insertCP, hc, if_false]
      have hxy : x.idx ≤ y.idx := by
        have := (cpLt_iff y x).not.mp hc
        omega
      refine List.pairwise_cons.mpr ⟨?_, h⟩
      intro z hz
      rcases List.mem_cons.mp hz with hz | hz
      · subst hz
        exact hxy
      · exact le_trans hxy (hy z hz)

lemma sortCPs_pairwise (l : List CheckPoint) : (sortCPs l).Pairwise cpLe := by
  induction l with
  | nil => simp [sortCPs]
  | cons x xs ih => exact pairwise_insertCP x (sortCPs xs) ih

lemma sortCPs_of_pairwise (l : List CheckPoint) (h : l.Pairwise cpLe) :
    sortCPs l = l := by
  induction l with
  | nil => rfl
  | cons x xs ih =>
    rcases (List.pairwise_cons.mp h) with ⟨hx, hxs⟩
    have hs : sortCPs xs = xs := ih hxs
    show insertCP x (sortCPs xs) = x :: xs
    rw [hs]
    cases xs with
    | nil => rfl
    | cons y ys =>
      have hxy : x.idx ≤ y.idx := hx y (List.mem_cons_self y ys)
      have hc : cpLt y x = false := by
        rw [← Bool.not_eq_true]
        rw [cpLt_iff]
        omega
      simp [insertCP, hc]

lemma sortCPs_eq_self_iff (l : List CheckPoint) :
    sortCPs l = l ↔ l.Pairwise cpLe := by
  constructor
  · intro h
    have := sortCPs_pairwise l
    rwa [h] at this
  · exact sortCPs_of_pairwise l

lemma splitOnChar_ne_nil (sep : Char) (s : Str) : splitOnChar sep s ≠ [] := by
  cases s with
  | nil => simp [splitOnChar]
  | cons c cs =>
    simp only [splitOnChar]
    cases h : splitOnChar sep cs with
    | nil => simp
    | cons p ps =>
      by_cases hc : c = sep <;> simp [hc]

lemma splitOnChar_length (sep : Char) (s : Str) :
    (splitOnChar sep s).length = countChar sep s + 1 := by
  induction s with
  | nil => simp [splitOnChar, countChar]
  | cons c cs ih =>
    simp only [splitOnChar]
    cases h : splitOnChar sep cs with
    | nil => exact absurd h (splitOnChar_ne_nil sep cs)
    | cons p ps =>
      rw [h] at ih
      simp only [countChar, List.length_cons] at ih
      by_cases hc : c = sep
      · simp only [hc, if_true, List.length_cons, countChar, List.countP_cons]
        simp
        omega
      · have hb : (c == sep) = false := by
          simp [hc]
        simp only [hc, if_false, List.length_cons, countChar, List.countP_cons, hb]
        simp
        omega

lemma checkpointOfPlacemark_idx (i : Nat) (pm : Placemark) (cp : CheckPoint)
    (h : checkpointOfPlacemark i pm = .ok cp) : cp.idx = (i : Int) + 1 := by
  unfold checkpointOfPlacemark at h
  repeat' split at h
  all_goals first
    | exact Except.noConfusion h
    | (injection h with h; rw [← h])

lemma extractFrom_ok (ps : List Placemark) :
    ∀ (i : Nat) (cps : List CheckPoint), extractFrom i ps = .ok cps →
      cps.length = ps.length
      ∧ ∀ (j : Nat) (hj : j < cps.length),
          (cps.get ⟨j, hj⟩).idx = ((i + j : Nat) : Int) + 1 := by
  induction ps with
  | nil =>
    intro i cps h
    simp only [extractFrom, Except.ok.injEq] at h
    subst h
    exact ⟨rfl, by intro j hj; simp at hj⟩
  | cons pm rest ih =>
    intro i cps h
    simp only [extractFrom] at h
    cases h1 : checkpointOfPlacemark i pm with
    | error e => rw [h1] at h; exact absurd h (by simp)
    | ok cp =>
      rw [h1] at h
      cases h2 : extractFrom (i + 1) rest with
      | error e => rw [h2] at h; exact absurd h (by simp)
      | ok tail =>
        rw [h2] at h
        simp only [Except.ok.injEq] at h
        subst h
        rcases ih (i + 1) tail h2 with ⟨hlen, hidx⟩
        constructor
        · simp [hlen]
        · intro j hj
          cases j with
          | zero =>
            simpa using checkpointOfPlacemark_idx i pm cp h1
          | succ j' =>
            have hj' : j' < tail.length := by
              simp at hj
              omega
            have := hidx j' hj'
            simp only [List.get_cons_succ]
            rw [this]
            push_cast
            ring

lemma mkEtappe_ok_inv (idx : Int) (kind : Str) (cps : List CheckPoint) (e : Etappe)
    (h : mkEtappe idx kind cps = .ok e) :
    e.idx = idx ∧ e.kind = kind ∧ e.checkpoints = cps := by
  unfold mkEtappe at h
  split at h
  · injection h with h
    subst h
    exact ⟨rfl, rfl, rfl⟩
  · exact Except.noConfusion h

lemma from_kml_folder_ok (f : Folder) (e : Etappe)
    (h : from_kml_folder f = .ok e) :
    countChar '_' f.name = 2
    ∧ pyInt ((splitOnChar '_' f.name).getD ((splitOnChar '_' f.name).length - 2) [])
        = some e.idx
    ∧ e.kind = (splitOnChar '_' f.name).getD ((splitOnChar '_' f.name).length - 1) []
    ∧ extractFrom 0 f.placemarks = .ok e.checkpoints := by
  unfold from_kml_folder at h
  split at h
  · rename_i hcount
    cases h1 : pyInt ((splitOnChar '_' f.name).getD ((splitOnChar '_' f.name).length - 2) []) with
    | none => rw [h1] at h; exact Except.noConfusion h
    | some n =>
      rw [h1] at h
      cases h2 : extractFrom 0 f.placemarks with
      | error er => rw [h2] at h; exact Except.noConfusion h
      | ok cps =>
        rw [h2] at h
        rcases mkEtappe_ok_inv n _ cps e h with ⟨hi, hk, hc⟩
        exact ⟨hcount, by rw [hi], hk, by rw [hc]⟩
  · exact Except.noConfusion h

lemma from_kml_folder_assert (f : Folder) (h : countChar '_' f.name ≠ 2) :
    from_kml_folder f = .error .assertionError := by
  unfold from_kml_folder
  simp [h]

/-- The last stage extracted for stage index `k`, in document order: later
list elements take precedence over earlier ones. -/
def lastWithIdx : List Etappe → Int → Option Etappe
  | [], _ => none
  | e :: rest, k =>
    match lastWithIdx rest k with
    | some w => some w
    | none => if e.idx = k then some e else none

lemma dictLookup_cons (p : Int × Etappe) (rest : List (Int × Etappe)) (k : Int) :
    dictLookup (p :: rest) k = if p.1 = k then some p.2 else dictLookup rest k := rfl

lemma dictLookup_map_replace (d : List (Int × Etappe)) (k : Int) (v : Etappe)
    (k' : Int) (hne : k' ≠ k) :
    dictLookup (d.map (fun p => if p.1 = k then (k, v) else p)) k'
      = dictLookup d k' := by
  induction d with
  | nil => rfl
  | cons p rest ih =>
    rw [List.map_cons]
    by_cases hp : p.1 = k
    · rw [if_pos hp, dictLookup_cons, dictLookup_cons]
      rw [if_neg (fun h => hne h.symm), if_neg (fun h => hne (hp ▸ h).symm)]
      exact ih
    · rw [if_neg hp, dictLookup_cons, dictLookup_cons]
      by_cases hq : p.1 = k'
      · rw [if_pos hq, if_pos hq]
      · rw [if_neg hq, if_neg hq]
        exact ih

lemma dictLookup_map_found (d : List (Int × Etappe)) (k : Int) (v : Etappe)
    (hany : d.any (fun p => p.1 == k) = true) :
    dictLookup (d.map (fun p => if p.1 = k then (k, v) else p)) k = some v := by
  induction d with
  | nil => simp at hany
  | cons p rest ih =>
    rw [List.map_cons]
    by_cases hp : p.1 = k
    · rw [if_pos hp, dictLookup_cons, if_pos rfl]
    · rw [if_neg hp, dictLookup_cons, if_neg hp]
      rw [List.any_cons] at hany
      have hb : (p.1 == k) = false := by simp [hp]
      rw [hb, Bool.false_or] at hany
      exact ih hany

lemma dictLookup_append (d l : List (Int × Etappe)) (k' : Int) :
    dictLookup (d ++ l) k' = (dictLookup d k').or (dictLookup l k') := by
  induction d with
  | nil => rfl
  | cons p rest ih =>
    rw [List.cons_append, dictLookup_cons, dictLookup_cons]
    by_cases hq : p.1 = k'
    · rw [if_pos hq, if_pos hq]
      rfl
    · rw [if_neg hq, if_neg hq]
      exact ih

lemma dictLookup_none_of_any_false (d : List (Int × Etappe)) (k' : Int)
    (hany : d.any (fun p => p.1 == k') = false) :
    dictLookup d k' = none := by
  induction d with
  | nil => rfl
  | cons p rest ih =>
    rw [List.any_cons] at hany
    rcases Bool.or_eq_false_iff.mp hany with ⟨h1, h2⟩
    rw [dictLookup_cons, if_neg (by simpa using h1)]
    exact ih h2

lemma dictLookup_dictInsert (d : List (Int × Etappe)) (k : Int) (v : Etappe)
    (k' : Int) :
    dictLookup (dictInsert d k v) k'
      = if k' = k then some v else dictLookup d k' := by
  unfold dictInsert
  by_cases hany : d.any (fun p => p.1 == k) = true
  · rw [if_pos hany]
    by_cases hk : k' = k
    · subst hk
      rw [if_pos rfl]
      exact dictLookup_map_found d k' v hany
    · rw [if_neg hk]
      exact dictLookup_map_replace d k v k' hk
  · rw [if_neg hany]
    rw [Bool.not_eq_true] at hany
    rw [dictLookup_append d [(k, v)] k']
    by_cases hk : k' = k
    · subst hk
      rw [dictLookup_none_of_any_false d k' hany]
      rw [dictLookup_cons, if_pos rfl, if_pos rfl]
      rfl
    · rw [dictLookup_cons, if_neg (fun h => hk h.symm), if_neg hk]
      show (dictLookup d k').or none = dictLookup d k'
      exact Option.or_none

lemma dictLookup_dictOf_aux (l : List Etappe) :
    ∀ (d : List (Int × Etappe)) (k : Int),
      dictLookup (l.foldl (fun d e => dictInsert d e.idx e) d) k
        = (lastWithIdx l k).or (dictLookup d k) := by
  induction l with
  | nil =>
    intro d k
    simp [lastWithIdx]
  | cons e rest ih =>
    intro d k
    rw [List.foldl_cons]
    rw [ih (dictInsert d e.idx e) k]
    rw [dictLookup_dictInsert d e.idx e k]
    show _ = (match lastWithIdx rest k with
      | some w => some w
      | none => if e.idx = k then some e else none).or (dictLookup d k)
    cases hr : lastWithIdx rest k with
    | some w => simp
    | none =>
      simp only [Option.none_or]
      by_cases hk : k = e.idx
      · rw [if_pos hk, if_pos (hk.symm)]
        simp
      · rw [if_neg hk, if_neg (fun h => hk h.symm)]
        simp

lemma dictLookup_dictOf (l : List Etappe) (k : Int) :
    dictLookup (dictOf l) k = lastWithIdx l k := by
  unfold dictOf
  rw [dictLookup_dictOf_aux l [] k]
  cases lastWithIdx l k <;> rfl

/-- Spec-side predicate: the placemark's `hidden` attribute is present and
parses to the integer zero (the "falsy" case that the filter keeps). -/
def hiddenIsFalsy (pm : Placemark) : Bool :=
  ((cpDataGet pm.extendedData hiddenKey).bind pyInt) == some 0

/-- Spec-side description of the filter's effect on one folder, following
the specification's words: a recognised stage group keeps exactly its
placemarks whose `hidden` attribute is falsy, in their original order; any
other group is copied verbatim. -/
def specStripFolder (f : Folder) : Folder :=
  if countChar '_' f.name = 2 then ⟨f.name, f.placemarks.filter hiddenIsFalsy⟩
  else f

lemma filterHidden_ok (ps : List Placemark)
    (h : ∀ pm ∈ ps, ((cpDataGet pm.extendedData hiddenKey).bind pyInt).isSome = true) :
    filterHidden ps = .ok (ps.filter hiddenIsFalsy) := by
  induction ps with
  | nil => rfl
  | cons pm rest ih =>
    have hpm := h pm (List.mem_cons_self pm rest)
    have hrest : filterHidden rest = .ok (rest.filter hiddenIsFalsy) :=
      ih (fun q hq => h q (List.mem_cons_of_mem pm hq))
    show filterHidden (pm :: rest) = .ok (List.filter hiddenIsFalsy (pm :: rest))
    unfold filterHidden
    split
    · rename_i hv
      rw [hv] at hpm
      simp [Option.bind] at hpm
    · rename_i v hv
      split
      · rename_i hn
        rw [hv, Option.some_bind, hn] at hpm
        simp at hpm
      · rename_i n hn
        rw [hrest]
        have hfalsy : hiddenIsFalsy pm = (n == 0) := by
          unfold hiddenIsFalsy
          rw [hv, Option.some_bind, hn]
          rfl
        rw [List.filter_cons, hfalsy]
        by_cases hz : n = 0
        · have hb : (n == 0) = true := by simp [hz]
          simp [hz, hb]
        · have hb : (n == 0) = false := by simp [hz]
          simp [hz, hb]

lemma stripFolder_ok (f : Folder)
    (h : countChar '_' f.name = 2 →
      ∀ pm ∈ f.placemarks, ((cpDataGet pm.extendedData hiddenKey).bind pyInt).isSome = true) :
    stripFolder f = .ok (specStripFolder f) := by
  unfold stripFolder specStripFolder
  by_cases hc : countChar '_' f.name = 2
  · rw [if_pos hc, if_pos hc, filterHidden_ok f.placemarks (h hc)]
  · rw [if_neg hc, if_neg hc]

lemma mapStrip_ok (fs : List Folder)
    (h : ∀ f ∈ fs, countChar '_' f.name = 2 →
      ∀ pm ∈ f.placemarks, ((cpDataGet pm.extendedData hiddenKey).bind pyInt).isSome = true) :
    mapStrip fs = .ok (fs.map specStripFolder) := by
  induction fs with
  | nil => rfl
  | cons f rest ih =>
    show mapStrip (f :: rest) = _
    unfold mapStrip
    rw [stripFolder_ok f (h f (List.mem_cons_self f rest))]
    rw [ih (fun g hg => h g (List.mem_cons_of_mem f hg))]
    rw [List.map_cons]

/-- The checkpoint the extractor builds from `pmA` at position 0. -/
def cpA1 : CheckPoint := ⟨1, 3, "onder de brug".toList, false, (1, 2)⟩

/-- The checkpoint the extractor builds from `pmB` at position 1. -/
def cpA2 : CheckPoint := ⟨2, 2, "paaltje".toList, true, (3, 4)⟩

/-- The stage extracted from `folderA`. -/
def etappeA : Etappe := ⟨4, "fietsen".toList, [cpA1, cpA2]⟩

/-- The stage extracted from `folderA2` (same stage index 4, other kind). -/
def etappeA2 : Etappe :=
  ⟨4, "kano".toList,
   [⟨1, 2, "paaltje".toList, true, (3, 4)⟩,
    ⟨2, 3, "onder de brug".toList, false, (1, 2)⟩]⟩

/-- C1: constructing a Stage (`Etappe`) from a checkpoint sequence succeeds
iff the sequence has at least 2 elements and equals itself sorted by
checkpoint index; otherwise construction fails with an `AssertionError`. -/
theorem c1_stage_construction_iff (idx : Int) (kind : Str) (cps : List CheckPoint) :
    isOkB (mkEtappe idx kind cps) = true ↔ 2 ≤ cps.length ∧ sortCPs cps = cps := by
  unfold mkEtappe
  by_cases h : sortCPs cps = cps ∧ cps.length > 1
  · rw [if_pos h]
    simp only [isOkB, true_iff]
    exact ⟨by omega, h.1⟩
  · rw [if_neg h]
    simp only [isOkB]
    constructor
    · intro hfalse
      exact Bool.noConfusion hfalse
    · rintro ⟨hlen, hsort⟩
      exact absurd ⟨hsort, by omega⟩ h

/-- C2: a top-level group is extracted as a stage iff its name split on the
underscore delimiter yields exactly three parts; extraction over a folder
list is unchanged by first discarding the non-matching folders (they are
skipped entirely, contributing nothing and raising nothing); for a group
that extracts successfully, the stage index is the middle part parsed as an
integer and the kind is the last part unmodified. -/
theorem c2_group_recognition (folders : List Folder) (f : Folder) (e : Etappe) :
    (countChar '_' f.name = 2 ↔ (splitOnChar '_' f.name).length = 3)
    ∧ process_etappes_kml folders
        = process_etappes_kml (folders.filter (fun g => countChar '_' g.name == 2))
    ∧ (from_kml_folder f = .ok e →
        pyInt ((splitOnChar '_' f.name).getD 1 []) = some e.idx
        ∧ e.kind = (splitOnChar '_' f.name).getD 2 []) := by
  refine ⟨?_, ?_, ?_⟩
  · rw [splitOnChar_length]
    constructor <;> intro h <;> omega
  · unfold process_etappes_kml
    rw [List.filter_filter]
    have : (fun g => (countChar '_' g.name == 2 && countChar '_' g.name == 2))
        = (fun g : Folder => countChar '_' g.name == 2) := by
      funext g
      rw [Bool.and_self]
    rw [this]
  · intro h
    rcases from_kml_folder_ok f e h with ⟨hc, hidx, hkind, -⟩
    have hlen : (splitOnChar '_' f.name).length = 3 := by
      rw [splitOnChar_length, hc]
    rw [hlen] at hidx hkind
    have h32 : (3 : Nat) - 2 = 1 := rfl
    have h31 : (3 : Nat) - 1 = 2 := rfl
    rw [h32] at hidx
    rw [h31] at hkind
    exact ⟨hidx, hkind⟩

/-- C2 witness: instantiated at the concrete folder `folderA`, named
`Etappe_4_fietsen`: the middle part parses to the extracted index 4 and the
kind is the last part. -/
theorem c2_witness :
    pyInt ((splitOnChar '_' folderA.name).getD 1 []) = some etappeA.idx
    ∧ etappeA.kind = (splitOnChar '_' folderA.name).getD 2 [] :=
  (c2_group_recognition [folderA] folderA etappeA).2.2 rfl

/-- C3 (code bug): the Team Roster Loader is intended to drop blank lines,
but `readlines()` keeps each line's trailing newline, so the `if len(line)`
filter never removes anything: a blank line is numbered and becomes a
roster entry whose name is empty.  On the failing input `"a\n\nb\n"` the
roster is `("1 a", "2 ", "3 b")` instead of the claimed `("1 a", "2 b")`;
on input without blank lines the claimed numbering does hold. -/
theorem c3_blank_lines_numbered :
    process_teams_file "a\n\nb\n".toList
        = .ok ["1 a".toList, "2 ".toList, "3 b".toList]
    ∧ process_teams_file "a\nb\nc\n".toList
        = .ok ["1 a".toList, "2 b".toList, "3 c".toList] :=
  ⟨rfl, rfl⟩

/-- C4: for every folder whose extraction succeeds, the extracted stage has
one checkpoint per placemark, and the checkpoint at 0-based position `j`
has index `j + 1` — the 1-based document-order position, regardless of any
index-like value stored in the placemark's attribute data. -/
theorem c4_checkpoint_index_is_position (f : Folder) (e : Etappe)
    (h : from_kml_folder f = .ok e) :
    e.checkpoints.length = f.placemarks.length
    ∧ ∀ (j : Nat) (hj : j < e.checkpoints.length),
        (e.checkpoints.get ⟨j, hj⟩).idx = (j : Int) + 1 := by
  rcases from_kml_folder_ok f e h with ⟨-, -, -, hext⟩
  rcases extractFrom_ok f.placemarks 0 e.checkpoints hext with ⟨hlen, hidx⟩
  refine ⟨hlen, ?_⟩
  intro j hj
  have := hidx j hj
  simpa using this

/-- C4 witness: instantiated at `folderA`, whose two checkpoints get
indices 1 and 2. -/
theorem c4_witness :
    etappeA.checkpoints.length = folderA.placemarks.length
    ∧ (etappeA.checkpoints.get ⟨0, by decide⟩).idx = (0 : Int) + 1
    ∧ (etappeA.checkpoints.get ⟨1, by decide⟩).idx = (1 : Int) + 1 := by
  have h := c4_checkpoint_index_is_position folderA etappeA rfl
  exact ⟨h.1, h.2 0 (by decide), h.2 1 (by decide)⟩

/-- C5: whenever every placemark of every recognised stage folder carries a
parseable `hidden` attribute, the filter produces a document with the same
namespace and name in which each recognised stage folder keeps exactly its
placemarks whose `hidden` value is the integer zero, in their original
order, and every non-recognised folder is copied verbatim with all its
features. -/
theorem c5_filter_keeps_falsy_hidden (doc : KmlDocument)
    (h : ∀ f ∈ doc.folders, countChar '_' f.name = 2 →
      ∀ pm ∈ f.placemarks,
        ((cpDataGet pm.extendedData hiddenKey).bind pyInt).isSome = true) :
    strip_hidden_cp_from_kml doc
      = .ok ⟨doc.ns, doc.docName, doc.folders.map specStripFolder⟩ := by
  unfold strip_hidden_cp_from_kml
  rw [mapStrip_ok doc.folders h]

/-- C5 witness: instantiated at the mixed document `docA` (one stage folder
with one visible and one hidden placemark, one organisational folder whose
placemark has no attributes at all). -/
theorem c5_witness :
    strip_hidden_cp_from_kml docA
      = .ok ⟨docA.ns, docA.docName, docA.folders.map specStripFolder⟩ :=
  c5_filter_keeps_falsy_hidden docA (by decide)

/-- C6: checkpoint comparison agrees with integer index comparison in both
directions, and sorting checkpoints is idempotent. -/
theorem c6_ordering_consistent_sort_idempotent :
    (∀ a b : CheckPoint, cpLt a b = true ↔ a.idx < b.idx)
    ∧ (∀ a b : CheckPoint, cpGt a b = true ↔ a.idx > b.idx)
    ∧ ∀ l : List CheckPoint, sortCPs (sortCPs l) = sortCPs l := by
  refine ⟨cpLt_iff, ?_, ?_⟩
  · intro a b
    simp [cpGt, CheckPoint.ltInt]
  · intro l
    exact sortCPs_of_pairwise _ (sortCPs_pairwise l)

/-- C7 (amended): a missing required attribute makes extraction of that
checkpoint fail with a `KeyError` naming the first missing key in the
evaluation order `score`, `hint`, `hidden`; the error carries only the key,
and an extraction error inside a recognised folder aborts the folder's
extraction with that same error. -/
theorem c7_missing_attribute_keyerror (i : Nat) (pm : Placemark) :
    (cpDataGet pm.extendedData scoreKey = none →
      checkpointOfPlacemark i pm = .error (.keyError scoreKey))
    ∧ (∀ v n, cpDataGet pm.extendedData scoreKey = some v →
        pyFloatTruncInt v = some n →
        cpDataGet pm.extendedData hintKey = none →
        checkpointOfPlacemark i pm = .error (.keyError hintKey))
    ∧ (∀ v n w, cpDataGet pm.extendedData scoreKey = some v →
        pyFloatTruncInt v = some n →
        cpDataGet pm.extendedData hintKey = some w →
        cpDataGet pm.extendedData hiddenKey = none →
        checkpointOfPlacemark i pm = .error (.keyError hiddenKey))
    ∧ ∀ (f : Folder) (err : PyError),
        countChar '_' f.name = 2 →
        (∃ m, pyInt ((splitOnChar '_' f.name).getD
            ((splitOnChar '_' f.name).length - 2) []) = some m) →
        extractFrom 0 f.placemarks = .error err →
        from_kml_folder f = .error err := by
  refine ⟨?_, ?_, ?_, ?_⟩
  · intro h
    simp only [checkpointOfPlacemark, h]
  · intro v n hv hn hh
    simp only [checkpointOfPlacemark, hv, hn, hh]
  · intro v n w hv hn hw hd
    simp only [checkpointOfPlacemark, hv, hn, hw, hd]
  · intro f err hc hm hext
    rcases hm with ⟨m, hm⟩
    unfold from_kml_folder
    rw [if_pos hc]
    simp only [hm, hext]

/-- C7 counterexample to the claim as stated: two folders with different
names, each containing the same placemark that lacks the `score` key,
produce the very same error value `KeyError("score")`; the raised error
names the missing key but cannot identify the group (nor the feature). -/
theorem c7_counterexample_error_lacks_context :
    from_kml_folder folderM1 = .error (.keyError scoreKey)
    ∧ from_kml_folder folderM2 = .error (.keyError scoreKey)
    ∧ folderM1.name ≠ folderM2.name :=
  ⟨rfl, rfl, by decide⟩

/-- C7 witness: the three missing-key cases at concrete placemarks, and the
propagation of the error out of a concrete folder. -/
theorem c7_witness :
    checkpointOfPlacemark 0 pmNoScore = .error (.keyError scoreKey)
    ∧ checkpointOfPlacemark 0 pmNoHint = .error (.keyError hintKey)
    ∧ checkpointOfPlacemark 0 pmNoHidden = .error (.keyError hiddenKey)
    ∧ from_kml_folder folderM1 = .error (.keyError scoreKey) :=
  ⟨(c7_missing_attribute_keyerror 0 pmNoScore).1 rfl,
   (c7_missing_attribute_keyerror 0 pmNoHint).2.1 "1".toList 1 rfl rfl rfl,
   (c7_missing_attribute_keyerror 0 pmNoHidden).2.2.1 "1".toList 1 "x".toList
     rfl rfl rfl rfl,
   (c7_missing_attribute_keyerror 0 pmNoScore).2.2.2 folderM1
     (.keyError scoreKey) (by decide) ⟨2, rfl⟩ rfl⟩

/-- C8 (amended): building a `Parcour` from a team file that yields a
roster and a stage document with no recognised stage groups succeeds, and
the resulting stages mapping is empty — no error is raised for an empty
stage set. -/
theorem c8_no_stage_groups_yields_empty_mapping (teamContent : Str)
    (folders : List Folder) (tn : List Str)
    (hteam : process_teams_file teamContent = .ok tn)
    (hnone : ∀ f ∈ folders, countChar '_' f.name ≠ 2) :
    parcourInit teamContent folders = .ok ⟨tn, []⟩ := by
  have hfilter : folders.filter (fun g => countChar '_' g.name == 2) = [] := by
    rw [List.filter_eq_nil_iff]
    intro f hf
    simp [hnone f hf]
  have hproc : process_etappes_kml folders = .ok [] := by
    unfold process_etappes_kml
    rw [hfilter]
    rfl
  unfold parcourInit
  rw [hteam, hproc]

/-- C8 counterexample to the claim as stated: a document whose only folder
is the organisational `Notes` folder yields a `Parcour` with an empty
stages mapping; construction succeeds instead of failing. -/
theorem c8_counterexample_empty_stageset_ok :
    parcourInit "a\n".toList [notesFolder] = .ok ⟨["1 a".toList], []⟩ := rfl

/-- C8 witness: instantiated at a one-name team file and a single
unrecognised folder. -/
theorem c8_witness :
    parcourInit "x\n".toList [⟨"Weetjes".toList, []⟩]
      = .ok ⟨["1 x".toList], []⟩ :=
  c8_no_stage_groups_yields_empty_mapping "x\n".toList
    [⟨"Weetjes".toList, []⟩] ["1 x".toList] rfl (by decide)

/-- C9 counterexample to the claim as stated: two distinct checkpoints
sharing index 1 form a sequence that `Etappe` construction accepts. -/
theorem c9_counterexample_duplicate_accepted :
    cpDupA.idx = cpDupB.idx ∧ cpDupA ≠ cpDupB
    ∧ isOkB (mkEtappe 1 "fietsen".toList [cpDupA, cpDupB]) = true :=
  ⟨rfl, by decide, rfl⟩

/-- C9 (amended): stage construction does not reject duplicate indices: any
checkpoint sequence of length at least 2 that is nondecreasing by index is
accepted, even when two positions carry the same index; construction fails
only for undersized or non-nondecreasing sequences. -/
theorem c9_sorted_duplicates_accepted (idx : Int) (kind : Str)
    (cps : List CheckPoint) (hlen : 2 ≤ cps.length)
    (hsorted : cps.Pairwise cpLe) :
    isOkB (mkEtappe idx kind cps) = true := by
  unfold mkEtappe
  rw [if_pos ⟨sortCPs_of_pairwise cps hsorted, by omega⟩]
  rfl

/-- C9 witness: the duplicate-index sequence is accepted. -/
theorem c9_witness :
    isOkB (mkEtappe 2 "kano".toList [cpDupA, cpDupB]) = true :=
  c9_sorted_duplicates_accepted 2 "kano".toList [cpDupA, cpDupB]
    (by decide) (by decide)

/-- C10: when every recognised folder extracts successfully, `Parcour`
stage processing succeeds and keys the stages by index in a dict where a
later folder with the same parsed index silently overwrites an earlier
one: the mapping at any index is the last extracted stage with that index
in document order, and no duplicate-key error exists. -/
theorem c10_duplicate_index_last_wins (folders : List Folder)
    (ets : List Etappe)
    (h : mapExtract (folders.filter (fun g => countChar '_' g.name == 2))
          = .ok ets) :
    process_etappes_kml folders = .ok (dictOf ets)
    ∧ ∀ k : Int, dictLookup (dictOf ets) k = lastWithIdx ets k := by
  constructor
  · unfold process_etappes_kml
    rw [h]
  · intro k
    exact dictLookup_dictOf ets k

/-- C10 witness: two recognised folders both named with stage index 4; the
mapping keeps the second one. -/
theorem c10_witness :
    process_etappes_kml [folderA, folderA2] = .ok (dictOf [etappeA, etappeA2])
    ∧ dictLookup (dictOf [etappeA, etappeA2]) 4 = some etappeA2 := by
  have h := c10_duplicate_index_last_wins [folderA, folderA2]
    [etappeA, etappeA2] rfl
  refine ⟨h.1, ?_⟩
  rw [h.2 4]
  rfl
